import Mathlib

/-!
Shallow embedding of the MicroML thermal-camera driver core:
`src/projects/camera_stm32f7/utility.c` (byte/word I2C transport and the
monotonic millisecond clock) and `src/projects/camera_stm32f7/flir.c`
(the FLIR Lepton command protocol).

Modelling conventions:
* Machine integers are `Nat`; the C type boundaries are made explicit with
  `u8`/`u16` (reduction mod 2^8 / 2^16) exactly where a C conversion occurs.
* The hardware bus is an oracle environment `I2CEnv`: the k-th byte-level
  transmit wait (`i2c_transmit_int_status` poll plus `wait_for_ack`) either
  succeeds (`ack k = true`, the byte is then handed to `i2c_send_data`) or
  times out; the k-th receive wait (`wait_for_empty_data_reg` plus
  `i2c_get_data`) either yields a byte or times out.  This matches the
  spec's `write_byte`/`read_byte` `Result<_, Timeout>` transport model.
* The simulated monotonic clock advances only inside `delay` (the spin wait
  `while (millis() < until);` returns exactly when the counter reaches the
  deadline); successful byte-level waits are instantaneous, matching the
  spec's simulated-clock scenarios.  Counter wraparound is treated as
  never occurring, as stated in the spec's data model.
* Loops that genuinely terminate in the C source are embedded as structural
  recursion; the one loop that can run forever (`i2c_read16_array`'s
  `uint8_t` counter against a bound that can reach 256) is embedded with
  explicit fuel, `none` meaning the loop has not finished within the fuel.
-/

namespace MicroML

/-- Reduction of a value to the range of C `uint8_t`, applied where the C
code converts to `uint8_t`. -/
def u8 (x : Nat) : Nat := x % 256

/-- Reduction of a value to the range of C `uint16_t`, applied where the C
code converts to `uint16_t`. -/
def u16 (x : Nat) : Nat := x % 65536

/-- Identifier standing for the `I2C1` peripheral handle (opaque to the
driver logic; its value is never inspected). -/
def I2C1 : Nat := 0

/-- Modelled from the spec: `utility.h` is not under `src/`; the direction
encoding is documented on `i2c_prepare` itself ("if zero then we are
reading, if one then we are writing"). -/
def I2C_WRITE_DIR : Nat := 1

/-- Modelled from the spec: `utility.h` is not under `src/`; zero encodes
the read direction per the `i2c_prepare` comment. -/
def I2C_READ_DIR : Nat := 0

/-- Modelled from the spec: `flir_defines.h` is not under `src/`; the
7-bit Lepton device address used by every transaction. -/
def LEP_I2C_DEVICE_ADDRESS : Nat := 0x2A

/-- Modelled from the spec: `flir_defines.h` is not under `src/`; STATUS
register address. -/
def LEP_I2C_STATUS_REG : Nat := 0x0002

/-- Modelled from the spec: `flir_defines.h` is not under `src/`; COMMAND
register address. -/
def LEP_I2C_COMMAND_REG : Nat := 0x0004

/-- Modelled from the spec: `flir_defines.h` is not under `src/`;
DATA_LENGTH register address. -/
def LEP_I2C_DATA_LENGTH_REG : Nat := 0x0006

/-- Modelled from the spec: `flir_defines.h` is not under `src/`; address
of the first direct data word slot DATA_0. -/
def LEP_I2C_DATA_0_REG : Nat := 0x0008

/-- Modelled from the spec: `flir_defines.h` is not under `src/`; address
of the indirect block data buffer window. -/
def LEP_I2C_DATA_BUFFER : Nat := 0xF800

/-- Modelled from the spec: `flir_defines.h` is not under `src/`; the BUSY
flag is the low bit of the status word. -/
def LEP_I2C_STATUS_BUSY_BIT_MASK : Nat := 0x0001

/-- Modelled from the spec: `flir_defines.h` is not under `src/`; the
ERROR_CODE sub-field of the status word. -/
def LEP_I2C_STATUS_ERROR_CODE_BIT_MASK : Nat := 0xFF00

/-- Modelled from the spec: `flir_defines.h` is not under `src/`; shift of
the ERROR_CODE sub-field. -/
def LEP_I2C_STATUS_ERROR_CODE_BIT_SHIFT : Nat := 8

/-- Modelled from the spec: `flir_defines.h` is not under `src/`;
module-id bits of a command code (disjoint from the other two fields per
spec section 6). -/
def LEP_I2C_COMMAND_MODULE_ID_BIT_MASK : Nat := 0x0F00

/-- Modelled from the spec: `flir_defines.h` is not under `src/`;
command-id bits of a command code. -/
def LEP_I2C_COMMAND_ID_BIT_MASK : Nat := 0x00FC

/-- Modelled from the spec: `flir_defines.h` is not under `src/`; type
(GET/SET) bits of a command code. -/
def LEP_I2C_COMMAND_TYPE_BIT_MASK : Nat := 0x0003

/-- Modelled from the spec: `flir_defines.h` is not under `src/`; the
initial "no error" result code (`LEP_OK`). -/
def LEP_OK : Nat := 0

/-- Modelled from the spec: `flir.h` is not under `src/`; the protocol
busy-wait timeout, 50 ms per the spec's timeout scenario. -/
def FLIR_BUSY_TIMEOUT : Nat := 50

/-- One observable action issued to the I2C bus controller, in the order
the driver performs them.  `sendData` corresponds to `i2c_send_data`. -/
inductive I2CAction where
  | setAddr (i2c addr : Nat)
  | setWriteDir (i2c : Nat)
  | setReadDir (i2c : Nat)
  | setNBytes (i2c n : Nat)
  | enableAutoend (i2c : Nat)
  | sendStart (i2c : Nat)
  | sendData (i2c b : Nat)
  deriving DecidableEq, Repr

/-- Oracle environment for the hardware: outcome of the k-th byte-level
transmit wait and the k-th byte-level receive wait. -/
structure I2CEnv where
  ack : Nat → Bool
  recv : Nat → Option Nat

/-- Driver-visible machine state: the simulated millisecond clock, how many
transmit/receive waits have been consumed, the trace of controller actions,
the `last_flir_error` slot of flir.c, and how many times the timeout
diagnostic (`printf("Fail 3\n")`) has been printed. -/
structure St where
  clock : Nat
  acks : Nat
  recvs : Nat
  actions : List I2CAction
  lastError : Nat
  prints : Nat
  deriving DecidableEq, Repr

/-- Initial state: clock at zero, no bus history, `last_flir_error`
initialised to `LEP_OK` as in flir.c line 4. -/
def flirInit : St :=
  { clock := 0, acks := 0, recvs := 0, actions := [], lastError := LEP_OK, prints := 0 }

/-- Embedding of `millis` (utility.c:367-370): the monotonic counter. -/
def millis (st : St) : Nat := st.clock

/-- Embedding of `delay` (utility.c:415-419): spins until
`millis() >= start + duration`; under the simulated clock it returns
exactly when the counter reaches the deadline. -/
def delay (st : St) (duration : Nat) : St :=
  { st with clock := st.clock + duration }

/-- Embedding of `flir_millis` (flir.c:329-332); the `uint32_t` wrap of the
`uint64_t` counter is treated as never occurring, per the spec. -/
def flir_millis (st : St) : Nat := millis st

/-- Embedding of `flir_delay` (flir.c:317-320). -/
def flir_delay (st : St) (delay_in_ms : Nat) : St := delay st delay_in_ms

/-- Embedding of `i2c_prepare` (utility.c:20-50) as the ordered list of
controller actions it issues.  `dir` and `num_bytes` are `uint8_t`
parameters, `addr` a 7-bit address passed as `uint8_t`. -/
def i2c_prepare (i2c addr dir num_bytes : Nat) : List I2CAction :=
  [I2CAction.setAddr i2c (u8 addr)] ++
  (if dir ≠ 0 then [I2CAction.setWriteDir i2c] else [I2CAction.setReadDir i2c]) ++
  [I2CAction.setNBytes i2c (u8 num_bytes)] ++
  (if dir ≠ 0 then [I2CAction.enableAutoend i2c, I2CAction.sendStart i2c]
   else [I2CAction.sendStart i2c, I2CAction.enableAutoend i2c])

/-- Record the actions of an `i2c_prepare` call in the machine state. -/
def runPrepare (st : St) (addr dir num_bytes : Nat) : St :=
  { st with actions := st.actions ++ i2c_prepare I2C1 addr dir num_bytes }

/-- One byte-level transmit step: the readiness/acknowledge wait (the
`while (wait) { ... wait_for_ack ... }` pattern of utility.c) followed by
`i2c_send_data` on success; on an acknowledge timeout the function returns
failure without transmitting. -/
def sendByte (env : I2CEnv) (st : St) (b : Nat) : Bool × St :=
  if env.ack st.acks then
    (true, { st with acks := st.acks + 1,
                     actions := st.actions ++ [I2CAction.sendData I2C1 (u8 b)] })
  else
    (false, { st with acks := st.acks + 1 })

/-- One byte-level receive step: `wait_for_empty_data_reg` followed by
`i2c_get_data`; `none` is a receive timeout. -/
def recvByte (env : I2CEnv) (st : St) : Option Nat × St :=
  match env.recv st.recvs with
  | none => (none, { st with recvs := st.recvs + 1 })
  | some b => (some (u8 b), { st with recvs := st.recvs + 1 })

/-- High byte as computed by utility.c: `(uint8_t) (data >> 8) & 0xFF`
with `data` a `uint16_t`. -/
def hiByte (data : Nat) : Nat := u8 (u16 data >>> 8) &&& 0xFF

/-- Low byte as computed by utility.c: `(uint8_t) data & 0xFF`. -/
def loByte (data : Nat) : Nat := u8 (u16 data) &&& 0xFF

/-- Word assembly as computed by `i2c_read16` (utility.c:250):
`(uint16_t)(separated_bytes[0] << 8) | separated_bytes[1]`. -/
def join16 (hi lo : Nat) : Nat := u16 ((hi <<< 8) ||| lo)

/-- Embedding of `i2c_write16` (utility.c:122-148): prepare a 2-byte write
transaction, then transmit the high byte and the low byte in that order. -/
def i2c_write16 (env : I2CEnv) (st : St) (addr data : Nat) : Bool × St :=
  let st := runPrepare st addr I2C_WRITE_DIR 2
  match sendByte env st (hiByte data) with
  | (false, st1) => (false, st1)
  | (true, st1) =>
    match sendByte env st1 (loByte data) with
    | (false, st2) => (false, st2)
    | (true, st2) => (true, st2)

/-- Loop body of `i2c_write16_array` (utility.c:166-197): `count` is the
remaining value of `num_bytes` (decremented once per iteration), `idx` the
offset of the `data` pointer, `high_byte` the phase flag. -/
def writeArrayLoop (env : I2CEnv) (data : List Nat) :
    Nat → Nat → Bool → St → Bool × St
  | 0, _, _, st => (true, st)
  | count + 1, idx, high_byte, st =>
    match sendByte env st
        (if high_byte then hiByte (data.getD idx 0) else loByte (data.getD idx 0)) with
    | (false, st1) => (false, st1)
    | (true, st1) =>
      if high_byte then writeArrayLoop env data count idx false st1
      else writeArrayLoop env data count (idx + 1) true st1

/-- Embedding of `i2c_write16_array` (utility.c:159-199): `num_words` is a
`uint8_t` parameter; `num_bytes = 2 * num_words` fits `uint16_t`, while the
count handed to `i2c_prepare` is truncated through its `uint8_t`
parameter. -/
def i2c_write16_array (env : I2CEnv) (st : St) (addr : Nat) (data : List Nat)
    (num_words : Nat) : Bool × St :=
  let nw := u8 num_words
  let st := runPrepare st addr I2C_WRITE_DIR (2 * nw)
  writeArrayLoop env data (2 * nw) 0 true st

/-- Embedding of `i2c_read16` (utility.c:231-253): prepare a 2-byte read,
receive two bytes, assemble `(high << 8) | low`. -/
def i2c_read16 (env : I2CEnv) (st : St) (addr : Nat) : Option Nat × St :=
  let st := runPrepare st addr I2C_READ_DIR 2
  match recvByte env st with
  | (none, st1) => (none, st1)
  | (some b0, st1) =>
    match recvByte env st1 with
    | (none, st2) => (none, st2)
    | (some b1, st2) => (some (join16 b0 b1), st2)

/-- Loop of `i2c_read16_array` (utility.c:293-313):
`for (uint8_t i = 0; i < (2 * num_words); i++)`.  `i` is the `uint8_t`
counter (incremented mod 256), `bound` the promoted `int` value
`2 * num_words`, `widx` the word offset of the `data` pointer, `high` the
latched high byte.  The loop is embedded with explicit `fuel`; `none`
means the loop has not finished within `fuel` iterations (the C loop has no
other exit than `i < bound` failing or a receive timeout). -/
def readArrayLoop (env : I2CEnv) (bound : Nat) :
    Nat → Nat → Nat → Bool → Nat → List Nat → St → Option (Bool × List Nat × St)
  | 0, _, _, _, _, _, _ => none
  | fuel + 1, i, widx, high_byte, high, buf, st =>
    if i < bound then
      match recvByte env st with
      | (none, st1) => some (false, buf, st1)
      | (some b, st1) =>
        if high_byte then
          readArrayLoop env bound fuel (u8 (i + 1)) widx false b buf st1
        else
          readArrayLoop env bound fuel (u8 (i + 1)) (widx + 1) true high
            (buf.set widx (join16 high b)) st1
    else
      some (true, buf, st)

/-- Embedding of `i2c_read16_array` (utility.c:284-315).  `num_words` is a
`uint8_t` parameter; the byte count passed to `i2c_prepare` goes through
that function's `uint8_t` parameter (truncation mod 256), while the loop
bound `2 * num_words` is the promoted `int` value. -/
def i2c_read16_array (env : I2CEnv) (fuel : Nat) (st : St) (addr : Nat)
    (buf : List Nat) (num_words : Nat) : Option (Bool × List Nat × St) :=
  let nw := u8 num_words
  let st := runPrepare st addr I2C_READ_DIR (2 * nw)
  readArrayLoop env (2 * nw) fuel 0 0 true 0 buf st

/-- Bytes handed to `i2c_send_data`, in order, within an action trace. -/
def sentBytes : List I2CAction → List Nat
  | [] => []
  | I2CAction.sendData _ b :: rest => b :: sentBytes rest
  | I2CAction.setAddr _ _ :: rest => sentBytes rest
  | I2CAction.setWriteDir _ :: rest => sentBytes rest
  | I2CAction.setReadDir _ :: rest => sentBytes rest
  | I2CAction.setNBytes _ _ :: rest => sentBytes rest
  | I2CAction.enableAutoend _ :: rest => sentBytes rest
  | I2CAction.sendStart _ :: rest => sentBytes rest

/-- Embedding of `read_register` (flir.c:193-201): point at the register
with a 16-bit write, then read one word back. -/
def read_register (env : I2CEnv) (st : St) (reg_address : Nat) : Option Nat × St :=
  match i2c_write16 env st LEP_I2C_DEVICE_ADDRESS reg_address with
  | (false, st1) => (none, st1)
  | (true, st1) => i2c_read16 env st1 LEP_I2C_DEVICE_ADDRESS

/-- Embedding of `write_register` (flir.c:173-182): the contiguous 2-word
array write `{reg_address, value}`. -/
def write_register (env : I2CEnv) (st : St) (reg_address value : Nat) : Bool × St :=
  i2c_write16_array env st LEP_I2C_DEVICE_ADDRESS [u16 reg_address, u16 value] 2

/-- Extraction of the ERROR_CODE field performed on the success paths of
`wait_busy_bit` (flir.c:118 and flir.c:140): mask, shift, `uint8_t` cast. -/
def errorCodeOf (status : Nat) : Nat :=
  u8 ((status &&& LEP_I2C_STATUS_ERROR_CODE_BIT_MASK) >>>
       LEP_I2C_STATUS_ERROR_CODE_BIT_SHIFT)

/-- Store the extracted error code in the `last_flir_error` slot. -/
def setLastError (st : St) (status : Nat) : St :=
  { st with lastError := errorCodeOf status }

/-- Polling loop of `wait_busy_bit` (flir.c:126-148).  `remaining` is the
number of whole milliseconds left until `end_time` (`end_time -
flir_millis()`), which the 1 ms sleep decrements by exactly one per
iteration under the simulated clock; the loop exits early when the busy bit
clears or a status read fails, and the `remaining = 0` exit with the busy
bit still set is the timeout branch (which prints `Fail 3`). -/
def waitLoop (env : I2CEnv) (status remaining : Nat) (st : St) : Bool × St :=
  if status &&& LEP_I2C_STATUS_BUSY_BIT_MASK = 0 then
    (true, setLastError st status)
  else
    match remaining with
    | 0 => (false, { st with prints := st.prints + 1 })
    | r + 1 =>
      let st1 := flir_delay st 1
      match read_register env st1 LEP_I2C_STATUS_REG with
      | (none, st2) => (false, st2)
      | (some status1, st2) => waitLoop env status1 r st2

/-- Embedding of `wait_busy_bit` (flir.c:105-149): read STATUS; on a read
failure return false; if BUSY is clear, latch ERROR_CODE and return true;
otherwise compute the deadline `now + timeout` and poll. -/
def wait_busy_bit (env : I2CEnv) (timeout : Nat) (st : St) : Bool × St :=
  match read_register env st LEP_I2C_STATUS_REG with
  | (none, st1) => (false, st1)
  | (some status, st1) =>
    if status &&& LEP_I2C_STATUS_BUSY_BIT_MASK = 0 then
      (true, setLastError st1 status)
    else
      waitLoop env status timeout st1

/-- Embedding of `get_last_flir_result` (flir.c:158-161). -/
def get_last_flir_result (st : St) : Nat := st.lastError

/-- Caller-visible outcome of a busy wait: the returned boolean, the value
a subsequent `get_last_flir_result` yields, and the millisecond clock the
caller can sample.  Console output is not readable by the calling code. -/
def wait_view (r : Bool × St) : Bool × Nat × Nat :=
  (r.1, get_last_flir_result r.2, millis r.2)

/-- Embedding of `read_data_register` (flir.c:263-306): point at
DATA_LENGTH, read the declared count (a byte count), fail on zero or on a
mismatch with `max_length * 2`, otherwise read `max_length` words. -/
def read_data_register (env : I2CEnv) (fuel : Nat) (st : St)
    (read_words : List Nat) (max_length : Nat) : Option (Bool × List Nat × St) :=
  match i2c_write16 env st LEP_I2C_DEVICE_ADDRESS LEP_I2C_DATA_LENGTH_REG with
  | (false, st1) => some (false, read_words, st1)
  | (true, st1) =>
    match i2c_read16 env st1 LEP_I2C_DEVICE_ADDRESS with
    | (none, st2) => some (false, read_words, st2)
    | (some num_bytes, st2) =>
      if num_bytes = 0 then some (false, read_words, st2)
      else if u8 max_length * 2 ≠ num_bytes then some (false, read_words, st2)
      else i2c_read16_array env fuel st2 LEP_I2C_DEVICE_ADDRESS read_words max_length

/-- Embedding of `get_flir_command` (flir.c:19-42). -/
def get_flir_command (env : I2CEnv) (fuel : Nat) (cmd_code : Nat)
    (data_words : List Nat) (num_words : Nat) (st : St) :
    Option (Bool × List Nat × St) :=
  match wait_busy_bit env FLIR_BUSY_TIMEOUT st with
  | (false, st1) => some (false, data_words, st1)
  | (true, st1) =>
    match write_register env st1 LEP_I2C_COMMAND_REG cmd_code with
    | (false, st2) => some (false, data_words, st2)
    | (true, st2) =>
      match wait_busy_bit env FLIR_BUSY_TIMEOUT st2 with
      | (false, st3) => some (false, data_words, st3)
      | (true, st3) => read_data_register env fuel st3 data_words num_words

/-- Modelled from the spec: the live `write_command_register` is not under
`src/` (flir.c:216-253 keeps only a commented-out draft; the live caller is
`set_flir_command`).  Spec section 4.5: address selection depends on
payload length, direct slots for at most 16 words, buffer window
otherwise. -/
def payload_register (num_words : Nat) : Nat :=
  if num_words ≤ 16 then LEP_I2C_DATA_0_REG else LEP_I2C_DATA_BUFFER

/-- Modelled from the spec: the live `write_command_register` is not under
`src/` (only its caller `set_flir_command` and a commented-out draft are).
Per spec section 4.5 (b), the payload words are written together with their
register address as a single register-write-with-payload sequence, the
address chosen by `payload_register`, and then the command register is
written; the result is `0` on success (the caller tests `== 0`), non-zero
on a bus failure. -/
def write_command_register (env : I2CEnv) (st : St) (cmd_code : Nat)
    (data_words : List Nat) (num_words : Nat) : Nat × St :=
  let nw := u8 num_words
  if nw = 0 then
    match write_register env st LEP_I2C_COMMAND_REG cmd_code with
    | (false, st1) => (4, st1)
    | (true, st1) => (0, st1)
  else
    match i2c_write16_array env st LEP_I2C_DEVICE_ADDRESS
        (payload_register nw :: data_words.take nw) (nw + 1) with
    | (false, st1) => (4, st1)
    | (true, st1) =>
      match write_register env st1 LEP_I2C_COMMAND_REG cmd_code with
      | (false, st2) => (4, st2)
      | (true, st2) => (0, st2)

/-- Embedding of `set_flir_command` (flir.c:57-77). -/
def set_flir_command (env : I2CEnv) (cmd_code : Nat) (data_words : List Nat)
    (num_words : Nat) (st : St) : Bool × St :=
  match wait_busy_bit env FLIR_BUSY_TIMEOUT st with
  | (false, st1) => (false, st1)
  | (true, st1) =>
    match write_command_register env st1 cmd_code data_words num_words with
    | (code, st2) =>
      if code = 0 then
        match wait_busy_bit env FLIR_BUSY_TIMEOUT st2 with
        | (false, st3) => (false, st3)
        | (true, st3) => (true, st3)
      else (false, st2)

/-- Embedding of `command_code` (flir.c:90-95): mask and OR the module-id
and command-id bits of `cmd_id` with the type bits of `cmd_type`; the
result is returned as `uint16_t`. -/
def command_code (cmd_id cmd_type : Nat) : Nat :=
  u16 ((cmd_id &&& LEP_I2C_COMMAND_MODULE_ID_BIT_MASK) |||
       (cmd_id &&& LEP_I2C_COMMAND_ID_BIT_MASK) |||
       (cmd_type &&& LEP_I2C_COMMAND_TYPE_BIT_MASK))

/-- Test environment: every acknowledge wait succeeds and every received
byte is 1, so every assembled status word is 0x0101 (BUSY set forever). -/
def envAck : I2CEnv := ⟨fun _ => true, fun _ => some 1⟩

/-- Test environment: busy statuses for the first two status reads, then a
receive timeout on the third read's first byte. -/
def envReadFail : I2CEnv := ⟨fun _ => true, fun k => if k < 4 then some 1 else none⟩

/-- Test environment: one busy status read, then a receive timeout on the
first in-loop status read. -/
def envFail2 : I2CEnv := ⟨fun _ => true, fun k => if k < 2 then some 1 else none⟩

/-- Test environment: the first status read yields high byte 3, low byte 0,
so STATUS = 0x0300 (BUSY clear, ERROR_CODE = 3). -/
def envC4 : I2CEnv := ⟨fun _ => true, fun k => if k = 0 then some 3 else some 0⟩

/-- Test environment: a faithful echo transport for the word 0xBEEF (high
byte on even receive indices, low byte on odd ones). -/
def envC5 : I2CEnv := ⟨fun _ => true, fun k => if k % 2 = 0 then some 0xBE else some 0xEF⟩

/-- Test environment for a GET of 2 words: DATA_LENGTH echoes 4 (bytes),
then data bytes 7 follow. -/
def envC1 : I2CEnv :=
  ⟨fun _ => true, fun k => if k = 0 then some 0 else if k = 1 then some 4 else some 7⟩

/-- Initial state advanced past the first two receive waits, used to align
a read-failure scenario on `envReadFail`. -/
def stRecv2 : St := { flirInit with recvs := 2 }

/-! ## General arithmetic helper lemmas -/

/-- Distribution of masking over bitwise or, right-hand form. -/
theorem and_or_right (a b c : Nat) : (a ||| b) &&& c = (a &&& c) ||| (b &&& c) := by
  rw [Nat.and_comm _ c, Nat.and_or_distrib_left c a b, Nat.and_comm c a, Nat.and_comm c b]

/-- Masking with `0xFF` is reduction mod 256. -/
theorem and255 (x : Nat) : x &&& 255 = x % 256 := by
  have h := Nat.and_pow_two_sub_one_eq_mod x 8
  norm_num at h
  exact h

/-- Combining a shifted value with a low byte is positional arithmetic. -/
theorem or_shift8 (a b : Nat) (hb : b < 256) : (a <<< 8) ||| b = a * 256 + b := by
  have hb' : b < 2 ^ 8 := by norm_num; omega
  apply Nat.eq_of_testBit_eq
  intro j
  rw [Nat.testBit_or, Nat.testBit_shiftLeft,
    show a * 256 = 2 ^ 8 * a by ring,
    Nat.testBit_mul_pow_two_add a hb' j]
  by_cases hj : j < 8
  · simp [hj, Nat.not_le.mpr hj]
  · have hbj : b.testBit j = false :=
      Nat.testBit_lt_two_pow
        (lt_of_lt_of_le hb' (Nat.pow_le_pow_right (by norm_num) (Nat.not_lt.mp hj)))
    simp [hj, Nat.not_lt.mp hj, hbj]

/-- The low bit of an assembled word is the low bit of its low byte. -/
theorem join16_and_one (hi lo : Nat) : join16 hi lo &&& 1 = lo % 2 := by
  unfold join16 u16
  rw [Nat.and_one_is_mod, Nat.mod_mod_of_dvd _ (by norm_num : (2:ℕ) ∣ 65536)]
  rw [← Nat.and_one_is_mod]
  rw [and_or_right, Nat.and_one_is_mod, Nat.and_one_is_mod, Nat.shiftLeft_eq]
  have h2 : hi * 2 ^ 8 % 2 = 0 := by
    have : (2:ℕ) ∣ hi * 2 ^ 8 := ⟨hi * 2 ^ 7, by ring⟩
    omega
  rw [h2, Nat.zero_or]

/-- Reduction mod 256 does not change the low bit. -/
theorem u8_mod_two (b : Nat) : u8 b % 2 = b % 2 :=
  Nat.mod_mod_of_dvd b (by norm_num)

/-! ## State-preservation helper lemmas -/

theorem runPrepare_clock (st : St) (a d n : Nat) : (runPrepare st a d n).clock = st.clock := rfl

theorem runPrepare_lastError (st : St) (a d n : Nat) :
    (runPrepare st a d n).lastError = st.lastError := rfl

theorem runPrepare_acks (st : St) (a d n : Nat) : (runPrepare st a d n).acks = st.acks := rfl

theorem runPrepare_recvs (st : St) (a d n : Nat) : (runPrepare st a d n).recvs = st.recvs := rfl

theorem runPrepare_prints (st : St) (a d n : Nat) : (runPrepare st a d n).prints = st.prints := rfl

theorem sendByte_pres (env : I2CEnv) (st : St) (b : Nat) :
    (sendByte env st b).2.clock = st.clock ∧
    (sendByte env st b).2.lastError = st.lastError ∧
    (sendByte env st b).2.recvs = st.recvs ∧
    (sendByte env st b).2.prints = st.prints := by
  unfold sendByte
  split <;> exact ⟨rfl, rfl, rfl, rfl⟩

theorem recvByte_pres (env : I2CEnv) (st : St) :
    (recvByte env st).2.clock = st.clock ∧
    (recvByte env st).2.lastError = st.lastError ∧
    (recvByte env st).2.acks = st.acks ∧
    (recvByte env st).2.prints = st.prints := by
  unfold recvByte
  cases env.recv st.recvs <;> exact ⟨rfl, rfl, rfl, rfl⟩

theorem i2c_write16_pres (env : I2CEnv) (st : St) (addr data : Nat) :
    (i2c_write16 env st addr data).2.clock = st.clock ∧
    (i2c_write16 env st addr data).2.lastError = st.lastError ∧
    (i2c_write16 env st addr data).2.recvs = st.recvs ∧
    (i2c_write16 env st addr data).2.prints = st.prints := by
  unfold i2c_write16
  rcases h1 : sendByte env (runPrepare st addr I2C_WRITE_DIR 2) (hiByte data) with ⟨ok1, st1⟩
  have p1 := sendByte_pres env (runPrepare st addr I2C_WRITE_DIR 2) (hiByte data)
  rw [h1] at p1
  rcases h2 : sendByte env st1 (loByte data) with ⟨ok2, st2⟩
  have p2 := sendByte_pres env st1 (loByte data)
  rw [h2] at p2
  cases ok1 <;> cases ok2 <;>
    simp_all [runPrepare_clock, runPrepare_lastError, runPrepare_recvs, runPrepare_prints]

theorem i2c_read16_pres (env : I2CEnv) (st : St) (addr : Nat) :
    (i2c_read16 env st addr).2.clock = st.clock ∧
    (i2c_read16 env st addr).2.lastError = st.lastError ∧
    (i2c_read16 env st addr).2.acks = st.acks ∧
    (i2c_read16 env st addr).2.prints = st.prints := by
  unfold i2c_read16
  rcases h1 : recvByte env (runPrepare st addr I2C_READ_DIR 2) with ⟨r1, st1⟩
  have p1 := recvByte_pres env (runPrepare st addr I2C_READ_DIR 2)
  rw [h1] at p1
  rcases h2 : recvByte env st1 with ⟨r2, st2⟩
  have p2 := recvByte_pres env st1
  rw [h2] at p2
  cases r1 <;> cases r2 <;>
    simp_all [runPrepare_clock, runPrepare_lastError, runPrepare_acks, runPrepare_prints]

theorem read_register_pres (env : I2CEnv) (st : St) (reg : Nat) :
    (read_register env st reg).2.clock = st.clock ∧
    (read_register env st reg).2.lastError = st.lastError ∧
    (read_register env st reg).2.prints = st.prints := by
  unfold read_register
  rcases h1 : i2c_write16 env st LEP_I2C_DEVICE_ADDRESS reg with ⟨ok1, st1⟩
  have p1 := i2c_write16_pres env st LEP_I2C_DEVICE_ADDRESS reg
  rw [h1] at p1
  have p2 := i2c_read16_pres env st1 LEP_I2C_DEVICE_ADDRESS
  cases ok1 <;> simp_all

theorem hiByte_lt (d : Nat) : hiByte d < 256 :=
  lt_of_le_of_lt Nat.and_le_right (by norm_num)

theorem loByte_lt (d : Nat) : loByte d < 256 :=
  lt_of_le_of_lt Nat.and_le_right (by norm_num)

theorem u8_of_lt {x : Nat} (h : x < 256) : u8 x = x := Nat.mod_eq_of_lt h

/-- Successful 16-bit write: both acknowledge waits succeed, the high byte
and then the low byte are transmitted. -/
theorem i2c_write16_ok (env : I2CEnv) (st : St) (addr data : Nat)
    (h0 : env.ack st.acks = true) (h1 : env.ack (st.acks + 1) = true) :
    i2c_write16 env st addr data =
      (true, { st with acks := st.acks + 2,
                       actions := st.actions ++ i2c_prepare I2C1 addr I2C_WRITE_DIR 2 ++
                         [I2CAction.sendData I2C1 (hiByte data),
                          I2CAction.sendData I2C1 (loByte data)] }) := by
  simp [i2c_write16, runPrepare, sendByte, h0, h1,
    u8_of_lt (hiByte_lt data), u8_of_lt (loByte_lt data), List.append_assoc]

/-- Successful 16-bit read: two bytes are received and assembled. -/
theorem i2c_read16_ok (env : I2CEnv) (st : St) (addr h l : Nat)
    (hr0 : env.recv st.recvs = some h) (hr1 : env.recv (st.recvs + 1) = some l) :
    i2c_read16 env st addr =
      (some (join16 (u8 h) (u8 l)),
       { st with recvs := st.recvs + 2,
                 actions := st.actions ++ i2c_prepare I2C1 addr I2C_READ_DIR 2 }) := by
  simp [i2c_read16, runPrepare, recvByte, hr0, hr1]

/-- Successful register read: the pointer write consumes the next two
acknowledge waits, the value read consumes the next two receive waits, and
the assembled status word is returned; clock, last-error slot and print
count are untouched. -/
theorem read_register_ok (env : I2CEnv) (st : St) (reg h l : Nat)
    (h0 : env.ack st.acks = true) (h1 : env.ack (st.acks + 1) = true)
    (hr0 : env.recv st.recvs = some h) (hr1 : env.recv (st.recvs + 1) = some l) :
    ∃ st', read_register env st reg = (some (join16 (u8 h) (u8 l)), st') ∧
      st'.acks = st.acks + 2 ∧ st'.recvs = st.recvs + 2 ∧ st'.clock = st.clock ∧
      st'.lastError = st.lastError ∧ st'.prints = st.prints := by
  unfold read_register
  rw [i2c_write16_ok env st LEP_I2C_DEVICE_ADDRESS reg h0 h1]
  dsimp only
  rw [i2c_read16_ok env
    { st with acks := st.acks + 2,
              actions := st.actions ++ i2c_prepare I2C1 LEP_I2C_DEVICE_ADDRESS I2C_WRITE_DIR 2 ++
                [I2CAction.sendData I2C1 (hiByte reg), I2CAction.sendData I2C1 (loByte reg)] }
    LEP_I2C_DEVICE_ADDRESS h l hr0 hr1]
  exact ⟨_, rfl, rfl, rfl, rfl, rfl, rfl⟩

/-- Failed register read, receive-timeout form: the pointer write succeeds
but the first receive wait of the value read times out. -/
theorem read_register_fail_recv (env : I2CEnv) (st : St) (reg : Nat)
    (h0 : env.ack st.acks = true) (h1 : env.ack (st.acks + 1) = true)
    (hr0 : env.recv st.recvs = none) :
    ∃ st', read_register env st reg = (none, st') ∧
      st'.acks = st.acks + 2 ∧ st'.recvs = st.recvs + 1 ∧ st'.clock = st.clock ∧
      st'.lastError = st.lastError ∧ st'.prints = st.prints := by
  unfold read_register
  rw [i2c_write16_ok env st LEP_I2C_DEVICE_ADDRESS reg h0 h1]
  simp [i2c_read16, runPrepare, recvByte, hr0]

/-- Polling under a device that always reports BUSY (every received status
word has an odd low byte): the loop runs down its whole deadline, sleeping
1 ms and consuming one full status read (two acknowledge waits, two receive
waits) per iteration, and fails with the last-error slot untouched. -/
theorem waitLoop_busy (env : I2CEnv)
    (hack : ∀ k, env.ack k = true)
    (hrecv : ∀ k, ∃ b, env.recv k = some b ∧ b % 2 = 1) :
    ∀ (r status : Nat) (st : St), status &&& LEP_I2C_STATUS_BUSY_BIT_MASK ≠ 0 →
    ∃ st', waitLoop env status r st = (false, st') ∧
      st'.clock = st.clock + r ∧ st'.lastError = st.lastError ∧
      st'.recvs = st.recvs + 2 * r ∧ st'.acks = st.acks + 2 * r := by
  intro r
  induction r with
  | zero =>
    intro status st hb
    unfold waitLoop
    rw [if_neg hb]
    exact ⟨_, rfl, rfl, rfl, rfl, rfl⟩
  | succ r ih =>
    intro status st hb
    unfold waitLoop
    rw [if_neg hb]
    dsimp only
    obtain ⟨b0, hb0, ho0⟩ := hrecv st.recvs
    obtain ⟨b1, hb1, ho1⟩ := hrecv (st.recvs + 1)
    obtain ⟨st2, hrr, ha, hr, hc, hl, hp⟩ :=
      read_register_ok env (flir_delay st 1) LEP_I2C_STATUS_REG b0 b1
        (hack _) (hack _) hb0 hb1
    rw [hrr]
    dsimp only
    have hbusy1 : join16 (u8 b0) (u8 b1) &&& LEP_I2C_STATUS_BUSY_BIT_MASK ≠ 0 := by
      unfold LEP_I2C_STATUS_BUSY_BIT_MASK
      rw [show (0x0001 : Nat) = 1 by norm_num, join16_and_one, u8_mod_two, ho1]
      norm_num
    obtain ⟨st', hw, hc', hl', hr', ha'⟩ := ih (join16 (u8 b0) (u8 b1)) st2 hbusy1
    refine ⟨st', hw, ?_, ?_, ?_, ?_⟩
    · have hcd : (flir_delay st 1).clock = st.clock + 1 := rfl
      omega
    · rw [hl', hl]
      rfl
    · have : (flir_delay st 1).recvs = st.recvs := rfl
      omega
    · have : (flir_delay st 1).acks = st.acks := rfl
      omega

/-- Frame property of the polling loop: on any failing outcome the
last-error slot is untouched. -/
theorem waitLoop_fail_frame (env : I2CEnv) :
    ∀ (r status : Nat) (st : St),
    (waitLoop env status r st).1 = false →
    (waitLoop env status r st).2.lastError = st.lastError := by
  intro r
  induction r with
  | zero =>
    intro status st h
    unfold waitLoop at h ⊢
    by_cases hb : status &&& LEP_I2C_STATUS_BUSY_BIT_MASK = 0
    · rw [if_pos hb] at h
      simp at h
    · rw [if_neg hb]
  | succ r ih =>
    intro status st h
    unfold waitLoop at h ⊢
    by_cases hb : status &&& LEP_I2C_STATUS_BUSY_BIT_MASK = 0
    · rw [if_pos hb] at h
      simp at h
    · rw [if_neg hb] at h ⊢
      dsimp only at h ⊢
      rcases hrr : read_register env (flir_delay st 1) LEP_I2C_STATUS_REG with ⟨v, st2⟩
      simp only [hrr] at h ⊢
      have pres := read_register_pres env (flir_delay st 1) LEP_I2C_STATUS_REG
      rw [hrr] at pres
      have hl2 : st2.lastError = st.lastError := pres.2.1
      cases v with
      | none =>
        dsimp only
        exact hl2
      | some s1 =>
        dsimp only at h ⊢
        exact (ih s1 st2 h).trans hl2

/-- Words the `data` pointer of an array write walks over, starting at
offset `idx`, for a given number of words (out-of-range slots read as the
unspecified default 0, mirroring that the C code would read past the
buffer). -/
def wordsFrom (data : List Nat) (idx : Nat) : Nat → List Nat
  | 0 => []
  | p + 1 => data.getD idx 0 :: wordsFrom data (idx + 1) p

/-- Big-endian byte stream of a word list, as produced by the transport. -/
def bytesOfWords : List Nat → List Nat
  | [] => []
  | w :: ws => hiByte w :: loByte w :: bytesOfWords ws

theorem sentBytes_append (xs ys : List I2CAction) :
    sentBytes (xs ++ ys) = sentBytes xs ++ sentBytes ys := by
  induction xs with
  | nil => rfl
  | cons x xs ih => cases x <;> simp [sentBytes, ih]

theorem sentBytes_prepare (i a d n : Nat) : sentBytes (i2c_prepare i a d n) = [] := by
  by_cases h : d ≠ 0 <;> simp [i2c_prepare, h, sentBytes]

/-- An array write whose acknowledge waits all succeed transmits the
big-endian byte pairs of the words its data pointer walks over, in order,
and touches nothing else in the state. -/
theorem writeArrayLoop_ok (env : I2CEnv) (hack : ∀ k, env.ack k = true) (data : List Nat) :
    ∀ (pairs idx : Nat) (st : St),
    ∃ st', writeArrayLoop env data (2 * pairs) idx true st = (true, st') ∧
      sentBytes st'.actions = sentBytes st.actions ++ bytesOfWords (wordsFrom data idx pairs) ∧
      st'.clock = st.clock ∧ st'.lastError = st.lastError ∧ st'.recvs = st.recvs ∧
      st'.acks = st.acks + 2 * pairs ∧ st'.prints = st.prints := by
  intro pairs
  induction pairs with
  | zero =>
    intro idx st
    exact ⟨st, rfl, by simp [wordsFrom, bytesOfWords], rfl, rfl, rfl, rfl, rfl⟩
  | succ p ih =>
    intro idx st
    have h2 : 2 * (p + 1) = 2 * p + 1 + 1 := by ring
    rw [h2]
    unfold writeArrayLoop
    rw [show sendByte env st (if true = true then hiByte (data.getD idx 0) else loByte (data.getD idx 0)) = sendByte env st (hiByte (data.getD idx 0)) by simp]
    simp only [sendByte, hack st.acks, if_true]
    unfold writeArrayLoop
    simp only [sendByte, hack, if_true]
    obtain ⟨st', hw, hs, hc, hl, hr, ha, hp⟩ := ih (idx + 1)
      { st with acks := st.acks + 1 + 1,
                actions := st.actions ++ [I2CAction.sendData I2C1 (u8 (hiByte (data.getD idx 0)))] ++
                  [I2CAction.sendData I2C1 (u8 (loByte (data.getD idx 0)))] }
    dsimp only at hs hc hl hr ha hp
    refine ⟨st', ?_, ?_, hc, hl, hr, by omega, hp⟩
    · simpa using hw
    · rw [hs]
      simp [sentBytes_append, sentBytes, bytesOfWords, wordsFrom,
        u8_of_lt (hiByte_lt _), u8_of_lt (loByte_lt _), List.append_assoc]

/-- Successful array write: byte-level characterization. -/
theorem i2c_write16_array_ok (env : I2CEnv) (st : St) (addr : Nat) (data : List Nat)
    (num_words : Nat) (hack : ∀ k, env.ack k = true) :
    ∃ st', i2c_write16_array env st addr data num_words = (true, st') ∧
      sentBytes st'.actions =
        sentBytes st.actions ++ bytesOfWords (wordsFrom data 0 (u8 num_words)) ∧
      st'.clock = st.clock ∧ st'.lastError = st.lastError ∧ st'.recvs = st.recvs ∧
      st'.acks = st.acks + 2 * u8 num_words ∧ st'.prints = st.prints := by
  unfold i2c_write16_array
  obtain ⟨st', hw, hs, hc, hl, hr, ha, hp⟩ :=
    writeArrayLoop_ok env hack data (u8 num_words) 0
      (runPrepare st addr I2C_WRITE_DIR (2 * u8 num_words))
  refine ⟨st', hw, ?_, hc, hl, hr, ha, hp⟩
  rw [hs]
  simp [runPrepare, sentBytes_append, sentBytes_prepare]

/-- Reading `bound` bytes terminates within the fuel when the counter can
reach the bound without wrapping (`bound ≤ 255`) and every byte arrives. -/
theorem readArrayLoop_run (env : I2CEnv) (hrecv : ∀ k, ∃ b, env.recv k = some b)
    (bound : Nat) (hbound : bound ≤ 255) :
    ∀ (s i : Nat), i + s = bound →
    ∀ (widx : Nat) (hb : Bool) (high : Nat) (buf : List Nat) (st : St) (fuel : Nat),
    s + 1 ≤ fuel →
    ∃ buf' st', readArrayLoop env bound fuel i widx hb high buf st = some (true, buf', st') ∧
      st'.recvs = st.recvs + s ∧ st'.clock = st.clock ∧ st'.lastError = st.lastError ∧
      st'.acks = st.acks ∧ st'.prints = st.prints ∧ st'.actions = st.actions := by
  intro s
  induction s with
  | zero =>
    intro i hi widx hb high buf st fuel hfuel
    match fuel, hfuel with
    | f + 1, _ =>
      unfold readArrayLoop
      rw [if_neg (by omega)]
      exact ⟨buf, st, rfl, rfl, rfl, rfl, rfl, rfl, rfl⟩
  | succ s ih =>
    intro i hi widx hb high buf st fuel hfuel
    match fuel, hfuel with
    | f + 1, hfuel =>
      unfold readArrayLoop
      rw [if_pos (by omega)]
      obtain ⟨b, hbv⟩ := hrecv st.recvs
      simp only [recvByte, hbv]
      have hu : u8 (i + 1) = i + 1 := u8_of_lt (by omega)
      cases hb with
      | true =>
        rw [if_pos rfl, hu]
        obtain ⟨buf', st', hrun, hr, hc, hl, ha, hp, hact⟩ :=
          ih (i + 1) (by omega) widx false (u8 b) buf
            { st with recvs := st.recvs + 1 } f (by omega)
        dsimp only at hr hc hl ha hp hact
        exact ⟨buf', st', hrun, by omega, hc, hl, ha, hp, hact⟩
      | false =>
        rw [if_neg (by simp), hu]
        obtain ⟨buf', st', hrun, hr, hc, hl, ha, hp, hact⟩ :=
          ih (i + 1) (by omega) (widx + 1) true high (buf.set widx (join16 high (u8 b)))
            { st with recvs := st.recvs + 1 } f (by omega)
        dsimp only at hr hc hl ha hp hact
        exact ⟨buf', st', hrun, by omega, hc, hl, ha, hp, hact⟩

/-- With a bound of at least 256 the `uint8_t` counter can never satisfy
the exit test, so as long as bytes keep arriving no amount of fuel
completes the loop. -/
theorem readArrayLoop_diverge (env : I2CEnv) (hrecv : ∀ k, ∃ b, env.recv k = some b)
    (bound : Nat) (hbound : 256 ≤ bound) :
    ∀ (fuel i widx : Nat) (hb : Bool) (high : Nat) (buf : List Nat) (st : St),
    i ≤ 255 →
    readArrayLoop env bound fuel i widx hb high buf st = none := by
  intro fuel
  induction fuel with
  | zero =>
    intro i widx hb high buf st hi
    rfl
  | succ f ih =>
    intro i widx hb high buf st hi
    unfold readArrayLoop
    rw [if_pos (by omega)]
    obtain ⟨b, hbv⟩ := hrecv st.recvs
    simp only [recvByte, hbv]
    have hu : u8 (i + 1) ≤ 255 := by
      have := Nat.mod_lt (i + 1) (show 0 < 256 by norm_num)
      unfold u8
      omega
    cases hb with
    | true =>
      rw [if_pos rfl]
      exact ih (u8 (i + 1)) widx false (u8 b) buf _ hu
    | false =>
      rw [if_neg (by simp)]
      exact ih (u8 (i + 1)) (widx + 1) true high _ _ hu

/-- Successful bounded array read (at most 127 words, enough fuel, all
bytes arriving): exactly `2 * num_words` bytes are consumed. -/
theorem i2c_read16_array_ok (env : I2CEnv) (st : St) (addr : Nat) (buf : List Nat)
    (num_words fuel : Nat) (hrecv : ∀ k, ∃ b, env.recv k = some b)
    (hN : u8 num_words ≤ 127) (hfuel : 2 * u8 num_words + 1 ≤ fuel) :
    ∃ buf' st', i2c_read16_array env fuel st addr buf num_words = some (true, buf', st') ∧
      st'.recvs = st.recvs + 2 * u8 num_words ∧ st'.clock = st.clock ∧
      st'.lastError = st.lastError ∧ st'.acks = st.acks ∧ st'.prints = st.prints := by
  unfold i2c_read16_array
  obtain ⟨buf', st', hrun, hr, hc, hl, ha, hp, hact⟩ :=
    readArrayLoop_run env hrecv (2 * u8 num_words) (by omega) (2 * u8 num_words) 0 (by omega)
      0 true 0 buf (runPrepare st addr I2C_READ_DIR (2 * u8 num_words)) fuel hfuel
  exact ⟨buf', st', hrun, hr, hc, hl, ha, hp⟩

/-- Unbounded array read (128 words or more, bytes always arriving): the
loop never completes, whatever the fuel. -/
theorem i2c_read16_array_diverge (env : I2CEnv) (st : St) (addr : Nat) (buf : List Nat)
    (num_words fuel : Nat) (hrecv : ∀ k, ∃ b, env.recv k = some b)
    (hN : 128 ≤ u8 num_words) :
    i2c_read16_array env fuel st addr buf num_words = none := by
  unfold i2c_read16_array
  exact readArrayLoop_diverge env hrecv (2 * u8 num_words) (by omega) fuel 0 0 true 0 buf _
    (by omega)

/-! ## Claim theorems -/

/-- C2: in `i2c_prepare`, every write-direction transaction enables
auto-termination-on-count before issuing the start condition, and every
read-direction transaction issues the start condition first and enables
auto-termination only afterwards. -/
theorem C2_i2c_prepare_ordering (i2c addr dir num_bytes : Nat) :
    I2CAction.sendStart i2c ∈ i2c_prepare i2c addr dir num_bytes ∧
    I2CAction.enableAutoend i2c ∈ i2c_prepare i2c addr dir num_bytes ∧
    (i2c_prepare i2c addr dir num_bytes).count (I2CAction.sendStart i2c) = 1 ∧
    (i2c_prepare i2c addr dir num_bytes).count (I2CAction.enableAutoend i2c) = 1 ∧
    (if dir = 0 then
      (i2c_prepare i2c addr dir num_bytes).indexOf (I2CAction.sendStart i2c) <
        (i2c_prepare i2c addr dir num_bytes).indexOf (I2CAction.enableAutoend i2c)
     else
      (i2c_prepare i2c addr dir num_bytes).indexOf (I2CAction.enableAutoend i2c) <
        (i2c_prepare i2c addr dir num_bytes).indexOf (I2CAction.sendStart i2c)) := by
  by_cases h : dir = 0 <;>
    simp [i2c_prepare, h, List.count_cons, List.indexOf_cons]

/-- C8: `command_code` is pure (repeated calls with equal arguments give
equal results), the type-field bits of its result are exactly `cmd_type`
masked with the type mask, and the module-id and command-id bits come only
from `cmd_id`. -/
theorem C8_command_code_fields (cmd_id cmd_type : Nat) :
    command_code cmd_id cmd_type = command_code cmd_id cmd_type ∧
    command_code cmd_id cmd_type &&& LEP_I2C_COMMAND_TYPE_BIT_MASK =
      cmd_type &&& LEP_I2C_COMMAND_TYPE_BIT_MASK ∧
    command_code cmd_id cmd_type &&& LEP_I2C_COMMAND_MODULE_ID_BIT_MASK =
      cmd_id &&& LEP_I2C_COMMAND_MODULE_ID_BIT_MASK ∧
    command_code cmd_id cmd_type &&& LEP_I2C_COMMAND_ID_BIT_MASK =
      cmd_id &&& LEP_I2C_COMMAND_ID_BIT_MASK := by
  have h1 : cmd_id &&& LEP_I2C_COMMAND_MODULE_ID_BIT_MASK < 2 ^ 16 :=
    lt_of_le_of_lt Nat.and_le_right (by norm_num [LEP_I2C_COMMAND_MODULE_ID_BIT_MASK])
  have h2 : cmd_id &&& LEP_I2C_COMMAND_ID_BIT_MASK < 2 ^ 16 :=
    lt_of_le_of_lt Nat.and_le_right (by norm_num [LEP_I2C_COMMAND_ID_BIT_MASK])
  have h3 : cmd_type &&& LEP_I2C_COMMAND_TYPE_BIT_MASK < 2 ^ 16 :=
    lt_of_le_of_lt Nat.and_le_right (by norm_num [LEP_I2C_COMMAND_TYPE_BIT_MASK])
  have hcc : command_code cmd_id cmd_type =
      cmd_id &&& LEP_I2C_COMMAND_MODULE_ID_BIT_MASK |||
      cmd_id &&& LEP_I2C_COMMAND_ID_BIT_MASK |||
      cmd_type &&& LEP_I2C_COMMAND_TYPE_BIT_MASK := by
    unfold command_code u16
    have := Nat.or_lt_two_pow (Nat.or_lt_two_pow h1 h2) h3
    norm_num at this
    exact Nat.mod_eq_of_lt this
  refine ⟨rfl, ?_, ?_, ?_⟩ <;>
    rw [hcc, and_or_right, and_or_right] <;>
    simp only [Nat.and_assoc, LEP_I2C_COMMAND_MODULE_ID_BIT_MASK,
      LEP_I2C_COMMAND_ID_BIT_MASK, LEP_I2C_COMMAND_TYPE_BIT_MASK] <;>
    simp [(by decide : (3840 : Nat) &&& 3 = 0), (by decide : (252 : Nat) &&& 3 = 0),
      (by decide : (3 : Nat) &&& 3 = 3), (by decide : (252 : Nat) &&& 3840 = 0),
      (by decide : (3 : Nat) &&& 3840 = 0), (by decide : (3840 : Nat) &&& 3840 = 3840),
      (by decide : (3840 : Nat) &&& 252 = 0), (by decide : (3 : Nat) &&& 252 = 0),
      (by decide : (252 : Nat) &&& 252 = 252)]

/-- C5: `i2c_write16` transmits the high byte of the value first, then the
low byte; `i2c_read16` assembles the two received bytes as
`(high << 8) | low`; and writing a 16-bit value through a faithful byte
transport and reading it back yields exactly that value. -/
theorem C5_word_codec_roundtrip (env : I2CEnv) (st : St) (addr V : Nat)
    (h0 : env.ack st.acks = true) (h1 : env.ack (st.acks + 1) = true) :
    ((i2c_write16 env st addr V).1 = true ∧
     sentBytes (i2c_write16 env st addr V).2.actions =
       sentBytes st.actions ++ [hiByte V, loByte V]) ∧
    (∀ (st2 : St) (h l : Nat), env.recv st2.recvs = some h →
       env.recv (st2.recvs + 1) = some l →
       (i2c_read16 env st2 addr).1 = some (join16 (u8 h) (u8 l))) ∧
    (∀ (st2 : St), env.recv st2.recvs = some (hiByte V) →
       env.recv (st2.recvs + 1) = some (loByte V) → V < 65536 →
       (i2c_read16 env st2 addr).1 = some V) := by
  have hhi : hiByte V < 256 := hiByte_lt V
  have hlo : loByte V < 256 := loByte_lt V
  have hround : V < 65536 → join16 (hiByte V) (loByte V) = V := by
    intro hV
    have e1 : hiByte V = V / 256 := by
      unfold hiByte u8 u16
      rw [and255, Nat.shiftRight_eq_div_pow]
      norm_num
      omega
    have e2 : loByte V = V % 256 := by
      unfold loByte u8 u16
      rw [and255]
      omega
    have e3 : join16 (V / 256) (V % 256) = V := by
      unfold join16 u16
      rw [or_shift8 _ _ (by omega)]
      omega
    rw [e1, e2, e3]
  refine ⟨⟨?_, ?_⟩, ?_, ?_⟩
  · rw [i2c_write16_ok env st addr V h0 h1]
  · rw [i2c_write16_ok env st addr V h0 h1]
    simp [sentBytes_append, sentBytes_prepare, sentBytes, List.append_assoc]
  · intro st2 h l hr0 hr1
    rw [i2c_read16_ok env st2 addr h l hr0 hr1]
  · intro st2 hr0 hr1 hV
    rw [i2c_read16_ok env st2 addr (hiByte V) (loByte V) hr0 hr1]
    rw [u8_of_lt hhi, u8_of_lt hlo, hround hV]

/-- C5 witness: value 0xBEEF through the echo transport `envC5`. -/
theorem C5_word_codec_roundtrip_witness :
    envC5.ack flirInit.acks = true ∧ envC5.ack (flirInit.acks + 1) = true ∧
    (((i2c_write16 envC5 flirInit 0x2A 0xBEEF).1 = true ∧
      sentBytes (i2c_write16 envC5 flirInit 0x2A 0xBEEF).2.actions =
        sentBytes flirInit.actions ++ [hiByte 0xBEEF, loByte 0xBEEF]) ∧
     (∀ (st2 : St) (h l : Nat), envC5.recv st2.recvs = some h →
        envC5.recv (st2.recvs + 1) = some l →
        (i2c_read16 envC5 st2 0x2A).1 = some (join16 (u8 h) (u8 l))) ∧
     (∀ (st2 : St), envC5.recv st2.recvs = some (hiByte 0xBEEF) →
        envC5.recv (st2.recvs + 1) = some (loByte 0xBEEF) → (0xBEEF : Nat) < 65536 →
        (i2c_read16 envC5 st2 0x2A).1 = some 0xBEEF)) ∧
    (i2c_read16 envC5 flirInit 0x2A).1 = some 0xBEEF := by
  refine ⟨rfl, rfl, C5_word_codec_roundtrip envC5 flirInit 0x2A 0xBEEF rfl rfl, ?_⟩
  exact (C5_word_codec_roundtrip envC5 flirInit 0x2A 0xBEEF rfl rfl).2.2 flirInit
    (by decide) (by decide) (by decide)

/-- An assembled status word whose low byte is odd has the BUSY bit set. -/
theorem status_busy_of_odd (b0 b1 : Nat) (h : b1 % 2 = 1) :
    join16 (u8 b0) (u8 b1) &&& LEP_I2C_STATUS_BUSY_BIT_MASK ≠ 0 := by
  unfold LEP_I2C_STATUS_BUSY_BIT_MASK
  rw [show (0x0001 : Nat) = 1 by norm_num, join16_and_one, u8_mod_two, h]
  norm_num

/-- C4: when the first STATUS read comes back with the BUSY bit clear,
`wait_busy_bit` returns success immediately — no sleep (clock unchanged)
and no further bus traffic beyond that single read (exactly two acknowledge
waits and two receive waits) — and stores the masked-and-shifted ERROR_CODE
field in the last-error slot, which `get_last_flir_result` then returns;
a non-zero error code is not a failure of the wait. -/
theorem C4_wait_not_busy_immediate (env : I2CEnv) (timeout : Nat) (st : St)
    (hi lo : Nat)
    (h0 : env.ack st.acks = true) (h1 : env.ack (st.acks + 1) = true)
    (hr0 : env.recv st.recvs = some hi) (hr1 : env.recv (st.recvs + 1) = some lo)
    (hnb : join16 (u8 hi) (u8 lo) &&& LEP_I2C_STATUS_BUSY_BIT_MASK = 0) :
    (wait_busy_bit env timeout st).1 = true ∧
    (wait_busy_bit env timeout st).2.clock = st.clock ∧
    (wait_busy_bit env timeout st).2.acks = st.acks + 2 ∧
    (wait_busy_bit env timeout st).2.recvs = st.recvs + 2 ∧
    (wait_busy_bit env timeout st).2.lastError = errorCodeOf (join16 (u8 hi) (u8 lo)) ∧
    get_last_flir_result (wait_busy_bit env timeout st).2 =
      errorCodeOf (join16 (u8 hi) (u8 lo)) := by
  obtain ⟨st1, hrr, ha, hr, hc, hl, hp⟩ :=
    read_register_ok env st LEP_I2C_STATUS_REG hi lo h0 h1 hr0 hr1
  unfold wait_busy_bit
  rw [hrr]
  dsimp only
  rw [if_pos hnb]
  refine ⟨rfl, ?_, ?_, ?_, rfl, rfl⟩
  · exact (show (setLastError st1 _).clock = st1.clock from rfl).trans hc
  · exact (show (setLastError st1 _).acks = st1.acks from rfl).trans ha
  · exact (show (setLastError st1 _).recvs = st1.recvs from rfl).trans hr

/-- C4 witness: BUSY = 0 and ERROR_CODE = 3 on the first status read; the
wait succeeds at once and the latched last error is 3. -/
theorem C4_wait_not_busy_immediate_witness :
    envC4.ack flirInit.acks = true ∧ envC4.ack (flirInit.acks + 1) = true ∧
    envC4.recv flirInit.recvs = some 3 ∧ envC4.recv (flirInit.recvs + 1) = some 0 ∧
    join16 (u8 3) (u8 0) &&& LEP_I2C_STATUS_BUSY_BIT_MASK = 0 ∧
    ((wait_busy_bit envC4 50 flirInit).1 = true ∧
     (wait_busy_bit envC4 50 flirInit).2.clock = flirInit.clock ∧
     (wait_busy_bit envC4 50 flirInit).2.acks = flirInit.acks + 2 ∧
     (wait_busy_bit envC4 50 flirInit).2.recvs = flirInit.recvs + 2 ∧
     (wait_busy_bit envC4 50 flirInit).2.lastError = errorCodeOf (join16 (u8 3) (u8 0)) ∧
     get_last_flir_result (wait_busy_bit envC4 50 flirInit).2 =
       errorCodeOf (join16 (u8 3) (u8 0))) ∧
    errorCodeOf (join16 (u8 3) (u8 0)) = 3 := by
  refine ⟨rfl, rfl, rfl, rfl, by decide, ?_, by decide⟩
  exact C4_wait_not_busy_immediate envC4 50 flirInit 3 0 rfl rfl rfl rfl (by decide)

/-- Run of `wait_busy_bit` against a device that always reports BUSY:
failure exactly at the deadline, one status re-read per millisecond. -/
theorem wait_busy_bit_busy_run (env : I2CEnv) (timeout : Nat) (st : St)
    (hack : ∀ k, env.ack k = true)
    (hbusy : ∀ k, ∃ b, env.recv k = some b ∧ b % 2 = 1) :
    ∃ st', wait_busy_bit env timeout st = (false, st') ∧
      st'.clock = st.clock + timeout ∧ st'.lastError = st.lastError ∧
      st'.recvs = st.recvs + 2 * (timeout + 1) := by
  obtain ⟨b0, hb0, ho0⟩ := hbusy st.recvs
  obtain ⟨b1, hb1, ho1⟩ := hbusy (st.recvs + 1)
  obtain ⟨st1, hrr, ha, hr, hc, hl, hp⟩ :=
    read_register_ok env st LEP_I2C_STATUS_REG b0 b1 (hack _) (hack _) hb0 hb1
  unfold wait_busy_bit
  rw [hrr]
  dsimp only
  rw [if_neg (status_busy_of_odd b0 b1 ho1)]
  obtain ⟨st', hw, hc', hl', hr', ha'⟩ :=
    waitLoop_busy env hack hbusy timeout (join16 (u8 b0) (u8 b1)) st1
      (status_busy_of_odd b0 b1 ho1)
  exact ⟨st', hw, by omega, by rw [hl', hl], by omega⟩

/-- C3: when every STATUS read reports BUSY (odd low byte) and every
acknowledge succeeds, `wait_busy_bit timeout` fails, and it does so exactly
`timeout` milliseconds after the deadline computation — within the claimed
window of `timeout` to `timeout + 1` ms — having re-read STATUS once per
1 ms sleep (`2 * (timeout + 1)` receive waits in total, including the
initial read). -/
theorem C3_wait_busy_timeout_window (env : I2CEnv) (timeout : Nat) (st : St)
    (hack : ∀ k, env.ack k = true)
    (hbusy : ∀ k, ∃ b, env.recv k = some b ∧ b % 2 = 1) :
    (wait_busy_bit env timeout st).1 = false ∧
    st.clock + timeout ≤ (wait_busy_bit env timeout st).2.clock ∧
    (wait_busy_bit env timeout st).2.clock ≤ st.clock + timeout + 1 ∧
    (wait_busy_bit env timeout st).2.recvs = st.recvs + 2 * (timeout + 1) := by
  obtain ⟨st', hw, hc, hl, hr⟩ := wait_busy_bit_busy_run env timeout st hack hbusy
  rw [hw]
  dsimp only
  exact ⟨rfl, by omega, by omega, by omega⟩

/-- C3 witness: protocol timeout 50 ms against the always-busy device
`envAck`, started from the initial state. -/
theorem C3_wait_busy_timeout_window_witness :
    (∀ k, envAck.ack k = true) ∧
    (∀ k, ∃ b, envAck.recv k = some b ∧ b % 2 = 1) ∧
    ((wait_busy_bit envAck 50 flirInit).1 = false ∧
     flirInit.clock + 50 ≤ (wait_busy_bit envAck 50 flirInit).2.clock ∧
     (wait_busy_bit envAck 50 flirInit).2.clock ≤ flirInit.clock + 50 + 1 ∧
     (wait_busy_bit envAck 50 flirInit).2.recvs = flirInit.recvs + 2 * (50 + 1)) :=
  ⟨fun _ => rfl, fun _ => ⟨1, rfl, rfl⟩,
   C3_wait_busy_timeout_window envAck 50 flirInit (fun _ => rfl)
     (fun _ => ⟨1, rfl, rfl⟩)⟩

/-- C10: the last-error slot is written only on the success paths of
`wait_busy_bit`; on every failing outcome (initial read failure, in-loop
read failure, or busy timeout) the slot — and hence the value
`get_last_flir_result` returns — is unchanged. -/
theorem C10_last_error_frame (env : I2CEnv) (timeout : Nat) (st : St)
    (h : (wait_busy_bit env timeout st).1 = false) :
    (wait_busy_bit env timeout st).2.lastError = st.lastError ∧
    get_last_flir_result (wait_busy_bit env timeout st).2 = get_last_flir_result st := by
  suffices hs : (wait_busy_bit env timeout st).2.lastError = st.lastError from
    ⟨hs, hs⟩
  unfold wait_busy_bit at h ⊢
  rcases hrr : read_register env st LEP_I2C_STATUS_REG with ⟨v, st1⟩
  simp only [hrr] at h ⊢
  have pres := read_register_pres env st LEP_I2C_STATUS_REG
  rw [hrr] at pres
  have hl1 : st1.lastError = st.lastError := pres.2.1
  cases v with
  | none =>
    dsimp only
    exact hl1
  | some status =>
    dsimp only at h ⊢
    by_cases hb : status &&& LEP_I2C_STATUS_BUSY_BIT_MASK = 0
    · rw [if_pos hb] at h
      simp at h
    · rw [if_neg hb] at h ⊢
      exact (waitLoop_fail_frame env timeout status st1 h).trans hl1

/-- C10 witness: a busy timeout against `envAck` leaves the initial
`LEP_OK` in the slot. -/
theorem C10_last_error_frame_witness :
    (wait_busy_bit envAck 2 flirInit).1 = false ∧
    ((wait_busy_bit envAck 2 flirInit).2.lastError = flirInit.lastError ∧
     get_last_flir_result (wait_busy_bit envAck 2 flirInit).2 =
       get_last_flir_result flirInit) := by
  have hfail : (wait_busy_bit envAck 2 flirInit).1 = false := by
    obtain ⟨st', hw, _⟩ :=
      wait_busy_bit_busy_run envAck 2 flirInit (fun _ => rfl) (fun _ => ⟨1, rfl, rfl⟩)
    rw [hw]
  exact ⟨hfail, C10_last_error_frame envAck 2 flirInit hfail⟩

/-- C6 counterexample: a busy timeout (`envAck`, which also prints the
timeout diagnostic) and an in-loop STATUS read failure (`envReadFail`, no
diagnostic printed) produce the same caller-visible outcome — the same
boolean failure, the same subsequent `get_last_flir_result`, and the same
clock — so the two failure causes are not distinguishable by the caller,
contrary to the claim. -/
theorem C6_counterexample :
    wait_view (wait_busy_bit envAck 1 flirInit) =
      wait_view (wait_busy_bit envFail2 1 flirInit) ∧
    (wait_busy_bit envAck 1 flirInit).1 = false ∧
    (wait_busy_bit envFail2 1 flirInit).1 = false ∧
    (wait_busy_bit envAck 1 flirInit).2.prints = 1 ∧
    (wait_busy_bit envFail2 1 flirInit).2.prints = 0 := by
  refine ⟨?_, ?_, ?_, ?_, ?_⟩ <;>
    simp [wait_busy_bit, waitLoop, read_register, i2c_write16, i2c_read16,
      runPrepare, sendByte, recvByte, envAck, envFail2, flirInit, wait_view,
      get_last_flir_result, millis, flir_delay, delay, i2c_prepare, u8, u16,
      join16, hiByte, loByte, setLastError, errorCodeOf,
      LEP_I2C_STATUS_BUSY_BIT_MASK, LEP_I2C_STATUS_ERROR_CODE_BIT_MASK,
      LEP_I2C_STATUS_ERROR_CODE_BIT_SHIFT, LEP_OK]

/-- C6 (amended): a STATUS read failure inside the polling loop makes
`wait_busy_bit` fail immediately — right after the failing read, with no
further sleeping or polling and no timeout diagnostic — though it is
surfaced to the caller through the same boolean failure as a timeout. -/
theorem C6_read_failure_immediate (env : I2CEnv) (timeout : Nat) (st : St)
    (hi lo : Nat)
    (hack : ∀ k, env.ack k = true)
    (hr0 : env.recv st.recvs = some hi) (hr1 : env.recv (st.recvs + 1) = some lo)
    (hbusy : join16 (u8 hi) (u8 lo) &&& LEP_I2C_STATUS_BUSY_BIT_MASK ≠ 0)
    (ht : 1 ≤ timeout)
    (hr2 : env.recv (st.recvs + 2) = none) :
    (wait_busy_bit env timeout st).1 = false ∧
    (wait_busy_bit env timeout st).2.clock = st.clock + 1 ∧
    (wait_busy_bit env timeout st).2.recvs = st.recvs + 3 ∧
    (wait_busy_bit env timeout st).2.lastError = st.lastError ∧
    (wait_busy_bit env timeout st).2.prints = st.prints := by
  obtain ⟨st1, hrr, ha, hr, hc, hl, hp⟩ :=
    read_register_ok env st LEP_I2C_STATUS_REG hi lo (hack _) (hack _) hr0 hr1
  unfold wait_busy_bit
  rw [hrr]
  dsimp only
  rw [if_neg hbusy]
  match timeout, ht with
  | r + 1, _ =>
    unfold waitLoop
    rw [if_neg hbusy]
    dsimp only
    obtain ⟨st2, hrf, ha2, hr2', hc2, hl2, hp2⟩ :=
      read_register_fail_recv env (flir_delay st1 1) LEP_I2C_STATUS_REG
        (hack _) (hack _) (by rw [show (flir_delay st1 1).recvs = st1.recvs from rfl, hr]; exact hr2)
    rw [hrf]
    dsimp only
    have hd1 : (flir_delay st1 1).clock = st1.clock + 1 := rfl
    have hd2 : (flir_delay st1 1).recvs = st1.recvs := rfl
    have hd3 : (flir_delay st1 1).lastError = st1.lastError := rfl
    have hd4 : (flir_delay st1 1).prints = st1.prints := rfl
    exact ⟨rfl, by omega, by omega, by rw [hl2, hd3, hl], by rw [hp2, hd4, hp]⟩

/-- C6 (amended) witness: busy first read, then a receive timeout on the
second status read of `envReadFail` — shifted so the failing read is the
first in-loop one. -/
theorem C6_read_failure_immediate_witness :
    (∀ k, envReadFail.ack k = true) ∧
    envReadFail.recv 2 = some 1 ∧ envReadFail.recv 3 = some 1 ∧
    join16 (u8 1) (u8 1) &&& LEP_I2C_STATUS_BUSY_BIT_MASK ≠ 0 ∧
    (1 : Nat) ≤ 5 ∧ envReadFail.recv 4 = none ∧
    ((wait_busy_bit envReadFail 5 stRecv2).1 = false ∧
     (wait_busy_bit envReadFail 5 stRecv2).2.clock = stRecv2.clock + 1 ∧
     (wait_busy_bit envReadFail 5 stRecv2).2.recvs = stRecv2.recvs + 3 ∧
     (wait_busy_bit envReadFail 5 stRecv2).2.lastError = stRecv2.lastError ∧
     (wait_busy_bit envReadFail 5 stRecv2).2.prints = stRecv2.prints) :=
  ⟨fun _ => rfl, rfl, rfl, by decide, by decide, rfl,
   C6_read_failure_immediate envReadFail 5 stRecv2 1 1 (fun _ => rfl) rfl rfl
     (by decide) (by decide) rfl⟩

/-- Shape of `read_data_register` after its DATA_LENGTH pointer write and
length read both succeed: the validation checks decide everything that
follows, and the caller's buffer is untouched on the failing checks. -/
theorem read_data_register_split (env : I2CEnv) (st : St) (buf : List Nat)
    (max_length fuel hi lo : Nat)
    (h0 : env.ack st.acks = true) (h1 : env.ack (st.acks + 1) = true)
    (hr0 : env.recv st.recvs = some hi) (hr1 : env.recv (st.recvs + 1) = some lo) :
    ∃ st2, read_data_register env fuel st buf max_length =
        (if join16 (u8 hi) (u8 lo) = 0 then some (false, buf, st2)
         else if u8 max_length * 2 ≠ join16 (u8 hi) (u8 lo) then some (false, buf, st2)
         else i2c_read16_array env fuel st2 LEP_I2C_DEVICE_ADDRESS buf max_length) ∧
      st2.recvs = st.recvs + 2 ∧ st2.acks = st.acks + 2 ∧
      st2.clock = st.clock ∧ st2.lastError = st.lastError ∧ st2.prints = st.prints := by
  unfold read_data_register
  rw [i2c_write16_ok env st LEP_I2C_DEVICE_ADDRESS LEP_I2C_DATA_LENGTH_REG h0 h1]
  dsimp only
  rw [i2c_read16_ok env
    { st with acks := st.acks + 2,
              actions := st.actions ++ i2c_prepare I2C1 LEP_I2C_DEVICE_ADDRESS I2C_WRITE_DIR 2 ++
                [I2CAction.sendData I2C1 (hiByte LEP_I2C_DATA_LENGTH_REG),
                 I2CAction.sendData I2C1 (loByte LEP_I2C_DATA_LENGTH_REG)] }
    LEP_I2C_DEVICE_ADDRESS hi lo hr0 hr1]
  dsimp only
  exact ⟨_, rfl, rfl, rfl, rfl, rfl, rfl⟩

/-- C1: after `read_data_register` reads the DATA_LENGTH register as a byte
count, the call fails on a declared count of 0 and on any count other than
`2 * max_length`, and in both cases the caller's buffer is returned
untouched; only when the declared count equals exactly `2 * max_length`
does it go on to read that many words (consuming `2 * max_length` further
receive waits) and succeed. -/
theorem C1_data_length_validation (env : I2CEnv) (st : St) (buf : List Nat)
    (max_length fuel hi lo : Nat)
    (h0 : env.ack st.acks = true) (h1 : env.ack (st.acks + 1) = true)
    (hr0 : env.recv st.recvs = some hi) (hr1 : env.recv (st.recvs + 1) = some lo) :
    (join16 (u8 hi) (u8 lo) = 0 →
      ∃ st', read_data_register env fuel st buf max_length = some (false, buf, st')) ∧
    (join16 (u8 hi) (u8 lo) ≠ 0 → u8 max_length * 2 ≠ join16 (u8 hi) (u8 lo) →
      ∃ st', read_data_register env fuel st buf max_length = some (false, buf, st')) ∧
    (join16 (u8 hi) (u8 lo) = u8 max_length * 2 → 1 ≤ u8 max_length →
      u8 max_length ≤ 127 → 2 * u8 max_length + 1 ≤ fuel →
      (∀ k, ∃ b, env.recv k = some b) →
      ∃ buf' st', read_data_register env fuel st buf max_length = some (true, buf', st') ∧
        st'.recvs = st.recvs + 2 + 2 * u8 max_length) := by
  obtain ⟨st2, heq, hrv2, ha2, hc2, hl2, hp2⟩ :=
    read_data_register_split env st buf max_length fuel hi lo h0 h1 hr0 hr1
  refine ⟨?_, ?_, ?_⟩
  · intro hL
    rw [heq, if_pos hL]
    exact ⟨st2, rfl⟩
  · intro hL hMis
    rw [heq, if_neg hL, if_pos hMis]
    exact ⟨st2, rfl⟩
  · intro hEq h1n h127 hfuel hrecv
    rw [heq, if_neg (by omega), if_neg (by omega)]
    obtain ⟨buf', st', hrun, hrv, hc, hl', ha, hp⟩ :=
      i2c_read16_array_ok env st2 LEP_I2C_DEVICE_ADDRESS buf max_length fuel
        hrecv h127 hfuel
    exact ⟨buf', st', hrun, by omega⟩

/-- C1 witness: a GET of 2 words whose DATA_LENGTH echo is 4 bytes against
`envC1`, with enough fuel; the zero and mismatch branches are instantiated
at the same declared length. -/
theorem C1_data_length_validation_witness :
    envC1.ack flirInit.acks = true ∧ envC1.ack (flirInit.acks + 1) = true ∧
    envC1.recv flirInit.recvs = some 0 ∧ envC1.recv (flirInit.recvs + 1) = some 4 ∧
    ((join16 (u8 0) (u8 4) = 0 →
       ∃ st', read_data_register envC1 5 flirInit [9, 9] 2 = some (false, [9, 9], st')) ∧
     (join16 (u8 0) (u8 4) ≠ 0 → u8 2 * 2 ≠ join16 (u8 0) (u8 4) →
       ∃ st', read_data_register envC1 5 flirInit [9, 9] 2 = some (false, [9, 9], st')) ∧
     (join16 (u8 0) (u8 4) = u8 2 * 2 → 1 ≤ u8 2 → u8 2 ≤ 127 → 2 * u8 2 + 1 ≤ 5 →
       (∀ k, ∃ b, envC1.recv k = some b) →
       ∃ buf' st', read_data_register envC1 5 flirInit [9, 9] 2 = some (true, buf', st') ∧
         st'.recvs = flirInit.recvs + 2 + 2 * u8 2)) :=
  ⟨rfl, rfl, rfl, rfl,
   C1_data_length_validation envC1 flirInit [9, 9] 2 5 0 4 rfl rfl rfl rfl⟩

/-- C7: the payload-write step of a SET command selects its register
address by payload length — at most 16 words go to the direct data-word
slots (DATA_0), more than 16 go through the indirect buffer window — and
the chosen address is the first word put on the wire of the payload
transaction. -/
theorem C7_payload_address_selection (env : I2CEnv) (st : St) (cmd_code : Nat)
    (data_words : List Nat) (num_words : Nat)
    (hack : ∀ k, env.ack k = true)
    (h1 : 1 ≤ u8 num_words) (h254 : u8 num_words ≤ 254) :
    (∃ rest, sentBytes (write_command_register env st cmd_code data_words num_words).2.actions =
       sentBytes st.actions ++
         (hiByte (payload_register (u8 num_words)) ::
          loByte (payload_register (u8 num_words)) :: rest)) ∧
    (u8 num_words ≤ 16 → payload_register (u8 num_words) = LEP_I2C_DATA_0_REG) ∧
    (16 < u8 num_words → payload_register (u8 num_words) = LEP_I2C_DATA_BUFFER) ∧
    (write_command_register env st cmd_code data_words num_words).1 = 0 := by
  unfold write_command_register
  rw [if_neg (by omega)]
  obtain ⟨st1, hw1, hs1, hc1, hl1, hr1, ha1, hp1⟩ :=
    i2c_write16_array_ok env st LEP_I2C_DEVICE_ADDRESS
      (payload_register (u8 num_words) :: data_words.take (u8 num_words))
      (u8 num_words + 1) hack
  rw [hw1]
  dsimp only
  unfold write_register
  obtain ⟨st2, hw2, hs2, hc2, hl2, hr2, ha2, hp2⟩ :=
    i2c_write16_array_ok env st1 LEP_I2C_DEVICE_ADDRESS
      [u16 LEP_I2C_COMMAND_REG, u16 cmd_code] 2 hack
  rw [hw2]
  dsimp only
  have hu : u8 (u8 num_words + 1) = u8 num_words + 1 := u8_of_lt (by omega)
  refine ⟨?_, ?_, ?_, rfl⟩
  · refine ⟨bytesOfWords (wordsFrom (payload_register (u8 num_words) ::
        data_words.take (u8 num_words)) 1 (u8 num_words)) ++
      bytesOfWords (wordsFrom [u16 LEP_I2C_COMMAND_REG, u16 cmd_code] 0 (u8 2)), ?_⟩
    rw [hs2, hs1, hu]
    simp only [wordsFrom, bytesOfWords, List.getD_cons_zero, List.append_assoc,
      List.cons_append, List.nil_append]
  · intro h
    unfold payload_register
    rw [if_pos h]
  · intro h
    unfold payload_register
    rw [if_neg (by omega)]

/-- C7 witness: a 20-word payload (boundary case from the spec scenario):
the selected register is the indirect buffer window. -/
theorem C7_payload_address_selection_witness :
    (∀ k, envAck.ack k = true) ∧ (1 : Nat) ≤ u8 20 ∧ u8 20 ≤ 254 ∧
    ((∃ rest, sentBytes (write_command_register envAck flirInit 0x4800
        (List.replicate 20 5) 20).2.actions =
       sentBytes flirInit.actions ++
         (hiByte (payload_register (u8 20)) :: loByte (payload_register (u8 20)) :: rest)) ∧
     (u8 20 ≤ 16 → payload_register (u8 20) = LEP_I2C_DATA_0_REG) ∧
     (16 < u8 20 → payload_register (u8 20) = LEP_I2C_DATA_BUFFER) ∧
     (write_command_register envAck flirInit 0x4800 (List.replicate 20 5) 20).1 = 0) ∧
    payload_register (u8 20) = LEP_I2C_DATA_BUFFER :=
  ⟨fun _ => rfl, by decide, by decide,
   C7_payload_address_selection envAck flirInit 0x4800 (List.replicate 20 5) 20
     (fun _ => rfl) (by decide) (by decide),
   by decide⟩

/-- C9 (amended): `i2c_read16_array` terminates having consumed exactly
`2 * num_words` bytes whenever `num_words ≤ 127` (including the degenerate
`num_words = 0`) and every byte arrives; for `num_words ≥ 128` its
`uint8_t` loop counter can never reach the bound `2 * num_words ≥ 256`, so
with bytes always arriving the loop never finishes, whatever the fuel; and
the byte count handed to `i2c_prepare` is truncated mod 256 through the
`uint8_t` parameter. -/
theorem C9_read_array_termination (env : I2CEnv) (st : St) (addr : Nat)
    (buf : List Nat) (num_words fuel : Nat)
    (hrecv : ∀ k, ∃ b, env.recv k = some b) :
    (u8 num_words ≤ 127 → 2 * u8 num_words + 1 ≤ fuel →
      ∃ buf' st', i2c_read16_array env fuel st addr buf num_words = some (true, buf', st') ∧
        st'.recvs = st.recvs + 2 * u8 num_words) ∧
    (128 ≤ u8 num_words → i2c_read16_array env fuel st addr buf num_words = none) ∧
    I2CAction.setNBytes I2C1 ((2 * u8 num_words) % 256) ∈
      i2c_prepare I2C1 addr I2C_READ_DIR (2 * u8 num_words) := by
  refine ⟨?_, ?_, ?_⟩
  · intro h127 hfuel
    obtain ⟨buf', st', hrun, hrv, _, _, _, _⟩ :=
      i2c_read16_array_ok env st addr buf num_words fuel hrecv h127 hfuel
    exact ⟨buf', st', hrun, hrv⟩
  · intro h128
    exact i2c_read16_array_diverge env st addr buf num_words fuel hrecv h128
  · simp [i2c_prepare, I2C_READ_DIR, u8]

/-- C9 counterexample: at `num_words = 0` the loop terminates immediately,
having processed exactly `2 * 0` bytes, although 0 is outside the claim's
1..127 range. -/
theorem C9_counterexample :
    (i2c_read16_array envAck 1 flirInit 42 [] 0).map (fun r => (r.1, r.2.2.recvs)) =
      some (true, 0) ∧
    ¬ (1 ≤ (0 : Nat)) := by
  exact ⟨by decide, by decide⟩

/-- C9 witness: one word with fuel 3 terminates consuming two bytes; the
divergence branch is instantiated vacuously at the same input. -/
theorem C9_read_array_termination_witness :
    (∀ k, ∃ b, envAck.recv k = some b) ∧
    ((u8 1 ≤ 127 → 2 * u8 1 + 1 ≤ 3 →
       ∃ buf' st', i2c_read16_array envAck 3 flirInit 42 [0] 1 = some (true, buf', st') ∧
         st'.recvs = flirInit.recvs + 2 * u8 1) ∧
     (128 ≤ u8 1 → i2c_read16_array envAck 3 flirInit 42 [0] 1 = none) ∧
     I2CAction.setNBytes I2C1 ((2 * u8 1) % 256) ∈
       i2c_prepare I2C1 42 I2C_READ_DIR (2 * u8 1)) :=
  ⟨fun _ => ⟨1, rfl⟩,
   C9_read_array_termination envAck flirInit 42 [0] 1 3 (fun _ => ⟨1, rfl⟩)⟩

end MicroML
